import Mathlib

/-!
Shallow embedding of the repository's beat & spectral analysis engine:
the `BeatDetection` class and the `AudioEngine` frequency-band aggregator
(`calculateFrequencyBands`).

Modelling conventions:
* JavaScript numbers are rationals (`ℚ`), except values produced by
  `Math.sqrt`, which live in `ℝ` (`Real.sqrt`).
* Byte arrays (frequency magnitudes, time-domain samples) are `List ℚ`;
  an element read is `List.getD _ _ 0`.  The source loops bound every
  index by the array length, so the default is never observed for the
  in-range reads the source performs.
* `performance.now()` is passed in explicitly as the `now`/`currentTime`
  argument; the engine's audio-context constants (`sampleRate`,
  `fftSize`) are likewise explicit parameters.
* The mutable `this` of the class is the `EngineState` structure;
  methods become functions `EngineState → ... → (result × EngineState)`
  or `EngineState → ... → EngineState`.
* `updateConfig` receives a JavaScript object, modelled as an
  association list from string keys to (well-typed) option values, so
  that the actually recognized key strings are part of the model.
-/

namespace BeatDetection

/-- Arithmetic mean as the source computes it:
`list.reduce((a,b)=>a+b,0) / list.length`.  On an empty list the
field-valued model yields `0/0 = 0`. -/
def listMean {α : Type} [Field α] (l : List α) : α := l.sum / (l.length : α)

/-- Population variance as the source computes it: mean of squared
deviations from `listMean`. -/
def listVar {α : Type} [Field α] (l : List α) : α :=
  (l.map (fun x => (x - listMean l) ^ 2)).sum / (l.length : α)

/-- JavaScript `Math.round`: round half towards positive infinity. -/
def jsRound (q : ℚ) : ℤ := ⌊q + 1/2⌋

/-- The source's rolling-history update: `push(x)` followed by a single
`shift()` when the capacity is exceeded. -/
def pushCapped {α : Type} (l : List α) (x : α) (cap : ℕ) : List α :=
  let l2 := l ++ [x]
  if cap < l2.length then l2.tail else l2

/-- Differences of consecutive elements, as the `for (i = 1; ...)`
interval loops compute them. -/
def consecDiffs : List ℚ → List ℚ
  | a :: b :: rest => (b - a) :: consecDiffs (b :: rest)
  | _ => []

/-- A stored kick detection event (`kickDetections` entries). -/
structure KickEvent where
  time : ℚ
  energy : ℝ
  spectralFlux : ℚ
  threshold : ℝ

/-- A stored snare detection event (`snareDetections` entries). -/
structure SnareEvent where
  time : ℚ
  energy : ℝ
  spectralFlux : ℚ
  spectralCentroid : ℚ

/-- The mutable fields of the `BeatDetection` object that the analysed
operations read or write.  Fields that the source only ever initializes
and resets (`spectralFluxHistory`, `bpmHistory`, `detectedBeats`) and
the windowed-RMS/ZCR parameters are omitted; fixed capacities
(RMS/ZCR history 30, confidence history 20) and the BPM update interval
(1000 ms) appear as literals where used, as no code path changes them. -/
structure EngineState where
  kickFreqRange : ℚ × ℚ
  kickThreshold : ℚ
  kickCooldown : ℚ
  lastKickTime : ℚ
  snareFreqRange : ℚ × ℚ
  snareThreshold : ℚ
  snareCooldown : ℚ
  lastSnareTime : ℚ
  onsetThreshold : ℚ
  energyHistory : List ℝ
  energyWindowSize : ℕ
  adaptiveMultiplier : ℚ
  previousFrequencyData : Option (List ℚ)
  kickDetections : List KickEvent
  snareDetections : List SnareEvent
  bpm : ℚ
  lastBpmUpdate : ℚ
  rmsHistory : List ℝ
  zcrHistory : List ℚ
  confidenceHistory : List ℝ
  beatConfidence : ℝ
  kickConfidence : ℝ
  snareConfidence : ℝ
  tempoConfidence : ℝ

/-- The constructor's initial state. -/
def initState : EngineState where
  kickFreqRange := (20, 200)
  kickThreshold := 1/10
  kickCooldown := 100
  lastKickTime := 0
  snareFreqRange := (200, 5000)
  snareThreshold := 3/20
  snareCooldown := 120
  lastSnareTime := 0
  onsetThreshold := 1/20
  energyHistory := []
  energyWindowSize := 20
  adaptiveMultiplier := 6/5
  previousFrequencyData := none
  kickDetections := []
  snareDetections := []
  bpm := 0
  lastBpmUpdate := 0
  rmsHistory := []
  zcrHistory := []
  confidenceHistory := []
  beatConfidence := 0
  kickConfidence := 0
  snareConfidence := 0
  tempoConfidence := 0

/-- Indices visited by the source loop
`for (let i = startBin; i <= endBin && i < len; i++)`.
(The start bins are non-negative for the positive frequency ranges this
engine uses, so restricting to natural indices is faithful.) -/
def binIndices (startBin endBin : ℤ) (len : ℕ) : List ℕ :=
  (List.range len).filter (fun i => decide (startBin ≤ (i : ℤ) ∧ (i : ℤ) ≤ endBin))

/-- The named frequency-band averages computed by
`AudioEngine.calculateFrequencyBands`. -/
structure BandValues where
  subBass : ℚ
  bass : ℚ
  lowMids : ℚ
  mids : ℚ
  highMids : ℚ
  treble : ℚ

/-- Average magnitude over one band's bin range
(`sum/count`, `0` when the range holds no bins). -/
def bandAverage (freq : List ℚ) (binSize : ℚ) (binCount : ℕ) (lo hi : ℚ) : ℚ :=
  let idx := binIndices ⌊lo / binSize⌋ ⌊hi / binSize⌋ binCount
  if 0 < idx.length then (idx.map (fun i => freq.getD i 0)).sum / (idx.length : ℚ) else 0

/-- `AudioEngine.calculateFrequencyBands`: six fixed bands,
`binSize = (sampleRate/2) / frequencyBinCount`. -/
def calculateFrequencyBands (freq : List ℚ) (sampleRate : ℚ) (binCount : ℕ) : BandValues :=
  let binSize := (sampleRate / 2) / (binCount : ℚ)
  { subBass := bandAverage freq binSize binCount 20 60
    bass := bandAverage freq binSize binCount 60 250
    lowMids := bandAverage freq binSize binCount 250 500
    mids := bandAverage freq binSize binCount 500 2000
    highMids := bandAverage freq binSize binCount 2000 4000
    treble := bandAverage freq binSize binCount 4000 20000 }

/-- `binSize` as the `BeatDetection` methods compute it:
`nyquist / (fftSize/2)` with `nyquist = sampleRate/2`. -/
def binSizeOf (sampleRate fftSize : ℚ) : ℚ := (sampleRate / 2) / (fftSize / 2)

/-- `BeatDetection.calculateKickEnergy`: RMS of magnitudes over the kick
band, normalized by 255. -/
noncomputable def calculateKickEnergy (freq : List ℚ) (sampleRate fftSize : ℚ)
    (range : ℚ × ℚ) : ℝ :=
  let bs := binSizeOf sampleRate fftSize
  let idx := binIndices ⌊range.1 / bs⌋ ⌊range.2 / bs⌋ freq.length
  let energy : ℚ := (idx.map (fun i => freq.getD i 0 ^ 2)).sum
  if 0 < idx.length then Real.sqrt ((energy : ℝ) / (idx.length : ℝ)) / 255 else 0

/-- `BeatDetection.calculateSnareEnergy`: like the kick energy but over
the snare band, weighting bins above 1 kHz by 1.5. -/
noncomputable def calculateSnareEnergy (freq : List ℚ) (sampleRate fftSize : ℚ)
    (range : ℚ × ℚ) : ℝ :=
  let bs := binSizeOf sampleRate fftSize
  let idx := binIndices ⌊range.1 / bs⌋ ⌊range.2 / bs⌋ freq.length
  let energy : ℚ :=
    (idx.map (fun i => freq.getD i 0 ^ 2 * (if 1000 < (i : ℚ) * bs then 3/2 else 1))).sum
  if 0 < idx.length then Real.sqrt ((energy : ℝ) / (idx.length : ℝ)) / 255 else 0

/-- `BeatDetection.calculateSpectralCentroid`: magnitude-weighted mean
frequency over the whole spectrum, normalized by the Nyquist frequency;
`0` when the total magnitude is not positive. -/
def calculateSpectralCentroid (freq : List ℚ) (sampleRate fftSize : ℚ) : ℚ :=
  let bs := binSizeOf sampleRate fftSize
  let weightedSum := ((List.range freq.length).map (fun (i : ℕ) => (i : ℚ) * bs * freq.getD i 0)).sum
  let magnitudeSum := freq.sum
  if 0 < magnitudeSum then (weightedSum / magnitudeSum) / (sampleRate / 2) else 0

/-- `BeatDetection.calculateSpectralFlux`: sum of positive magnitude
increases over the kick band, normalized by `binCount*255`.  Returns the
flux value together with the `previousFrequencyData` field as the method
leaves it (on the first call the source allocates an all-zero snapshot). -/
def calculateSpectralFlux (prev : Option (List ℚ)) (cur : List ℚ)
    (sampleRate fftSize : ℚ) (range : ℚ × ℚ) : ℚ × Option (List ℚ) :=
  match prev with
  | none => (0, some (List.replicate cur.length 0))
  | some p =>
    let bs := binSizeOf sampleRate fftSize
    let startBin := ⌊range.1 / bs⌋
    let endBin := ⌊range.2 / bs⌋
    let idx := binIndices startBin endBin (min cur.length p.length)
    let flux := (idx.map (fun i =>
      let d := cur.getD i 0 - p.getD i 0
      if 0 < d then d else 0)).sum
    let binCount := endBin - startBin + 1
    (if 0 < binCount then flux / ((binCount : ℚ) * 255) else 0, some p)

/-- The source's rescaling of one time-domain byte to `[-1, 1]`:
`(sample - 128) / 128`. -/
def rescale (x : ℚ) : ℚ := (x - 128) / 128

/-- Mean of the squared rescaled samples
(`sumOfSquares / length` in `calculateRMSEnergy`). -/
def rmsMeanSquare (timeData : List ℚ) : ℚ :=
  (timeData.map (fun x => rescale x ^ 2)).sum / (timeData.length : ℚ)

/-- `BeatDetection.calculateRMSEnergy` (its returned value;
the push into `rmsHistory` is applied at the call site in
`analyzeFrame` below). -/
noncomputable def calculateRMSEnergy (timeData : List ℚ) : ℝ :=
  Real.sqrt ((rmsMeanSquare timeData : ℚ) : ℝ)

/-- One sign-change test of `calculateZeroCrossingRate`. -/
def crossingStep (p c : ℚ) : Bool := decide ((0 ≤ p ∧ c < 0) ∨ (p < 0 ∧ 0 ≤ c))

/-- Count of zero crossings along a rescaled sample list, starting from
a previous sample. -/
def countCrossings : ℚ → List ℚ → ℕ
  | _, [] => 0
  | p, c :: rest => (if crossingStep p c then 1 else 0) + countCrossings c rest

/-- `BeatDetection.calculateZeroCrossingRate` (returned value; the
history push is applied at the call site in `analyzeFrame`). -/
def calculateZeroCrossingRate (timeData : List ℚ) : ℚ :=
  match timeData.map rescale with
  | [] => 0
  | p :: rest => (countCrossings p rest : ℚ) / ((timeData.length : ℚ) - 1)

/-- `Math.min(...list)` over a non-empty list (`0` for the empty list,
which the source never reaches on this path). -/
def listMinQ : List ℚ → ℚ
  | [] => 0
  | h :: t => t.foldl min h

/-- `Math.max(...list)` over a non-empty list. -/
def listMaxQ : List ℚ → ℚ
  | [] => 0
  | h :: t => t.foldl max h

/-- The statistics object returned by `getZCRStats`.  The source's
empty-history branch returns an object with no `stdDev` property, which
is modelled by `stdDev : Option ℝ`. -/
structure ZCRStats where
  current : ℚ
  average : ℚ
  minVal : ℚ
  maxVal : ℚ
  variance : ℚ
  stdDev : Option ℝ
  noisiness : String

/-- `BeatDetection.getZCRStats`, as a function of the `zcrHistory`
field it reads. -/
noncomputable def getZCRStats (zcrHistory : List ℚ) : ZCRStats :=
  match zcrHistory with
  | [] =>
    { current := 0, average := 0, minVal := 0, maxVal := 0, variance := 0,
      stdDev := none, noisiness := "unknown" }
  | _ :: _ =>
    let current := zcrHistory.getD (zcrHistory.length - 1) 0
    let average := listMean zcrHistory
    let variance := (zcrHistory.map (fun z => (z - average) ^ 2)).sum / (zcrHistory.length : ℚ)
    { current := current
      average := average
      minVal := listMinQ zcrHistory
      maxVal := listMaxQ zcrHistory
      variance := variance
      stdDev := some (Real.sqrt (variance : ℝ))
      noisiness :=
        if current < 1/50 then "tonal" else if current < 1/20 then "mixed" else "noisy" }

/-- `BeatDetection.getAdaptiveThreshold`:
`max(mean + adaptiveMultiplier*stddev, kickThreshold)` over the kick
energy history, or the floor `kickThreshold` when the history is empty. -/
noncomputable def getAdaptiveThreshold (s : EngineState) : ℝ :=
  if s.energyHistory.length = 0 then (s.kickThreshold : ℝ)
  else
    max (listMean s.energyHistory +
          (s.adaptiveMultiplier : ℝ) * Real.sqrt (listVar s.energyHistory))
        (s.kickThreshold : ℝ)

/-- `BeatDetection.detectKick`: cooldown gate, then adaptive-threshold
energy gate plus spectral-flux onset gate; on firing, records the event,
evicts events older than ten seconds and advances `lastKickTime`. -/
noncomputable def detectKick (s : EngineState) (kickEnergy : ℝ)
    (spectralFlux : ℚ) (currentTime : ℚ) : Bool × EngineState :=
  if currentTime - s.lastKickTime < s.kickCooldown then (false, s)
  else
    let thr := getAdaptiveThreshold s
    if thr < kickEnergy ∧ s.onsetThreshold < spectralFlux then
      (true,
        ({ s with
          lastKickTime := currentTime
          kickDetections :=
            (s.kickDetections ++
              [({ time := currentTime, energy := kickEnergy,
                  spectralFlux := spectralFlux, threshold := thr } : KickEvent)]).filter
              (fun k => decide (currentTime - 10000 < k.time)) } : EngineState))
    else (false, s)

/-- `BeatDetection.detectSnare`: cooldown gate, then the fixed
`snareThreshold` energy gate, a 1.2x stricter flux gate and the
brightness gate `spectralCentroid > 0.3`. -/
noncomputable def detectSnare (s : EngineState) (snareEnergy : ℝ)
    (spectralFlux spectralCentroid : ℚ) (currentTime : ℚ) : Bool × EngineState :=
  if currentTime - s.lastSnareTime < s.snareCooldown then (false, s)
  else
    if (s.snareThreshold : ℝ) < snareEnergy ∧
        s.onsetThreshold * (6/5) < spectralFlux ∧ (3/10 : ℚ) < spectralCentroid then
      (true,
        ({ s with
          lastSnareTime := currentTime
          snareDetections :=
            (s.snareDetections ++
              [({ time := currentTime, energy := snareEnergy,
                  spectralFlux := spectralFlux,
                  spectralCentroid := spectralCentroid } : SnareEvent)]).filter
              (fun x => decide (currentTime - 10000 < x.time)) } : EngineState))
    else (false, s)

/-- Inputs of one `detectKick` call, for driving call sequences. -/
structure KickCall where
  energy : ℝ
  flux : ℚ
  time : ℚ

/-- Inputs of one `detectSnare` call. -/
structure SnareCall where
  energy : ℝ
  flux : ℚ
  centroid : ℚ
  time : ℚ

/-- `detectKick` as a step function on the engine state. -/
noncomputable def kickStep (s : EngineState) (c : KickCall) : Bool × EngineState :=
  detectKick s c.energy c.flux c.time

/-- `detectSnare` as a step function on the engine state. -/
noncomputable def snareStep (s : EngineState) (c : SnareCall) : Bool × EngineState :=
  detectSnare s c.energy c.flux c.centroid c.time

/-- Run a detector over a sequence of per-frame calls, collecting the
boolean it returns on each call. -/
def runDetector {σ ι : Type} (step : σ → ι → Bool × σ) : σ → List ι → List Bool
  | _, [] => []
  | s, c :: rest => (step s c).1 :: runDetector step (step s c).2 rest

/-- `Array.prototype.sort((a,b)=>a.time-b.time)` on the kick log. -/
def sortKicksByTime (l : List KickEvent) : List KickEvent :=
  l.insertionSort (fun a b => a.time ≤ b.time)

/-- `Array.prototype.sort((a,b)=>a.time-b.time)` on the snare log. -/
def sortSnaresByTime (l : List SnareEvent) : List SnareEvent :=
  l.insertionSort (fun a b => a.time ≤ b.time)

/-- The kicks of the last ten seconds, sorted by time
(`updateBPM`'s `recentKicks`). -/
def recentKicksFor (s : EngineState) (now : ℚ) : List KickEvent :=
  sortKicksByTime (s.kickDetections.filter (fun k => decide (now - k.time < 10000)))

/-- Consecutive inter-kick intervals kept by `updateBPM`'s
`[200ms, 2000ms]` filter. -/
def bpmIntervalsOf (s : EngineState) (now : ℚ) : List ℚ :=
  (consecDiffs ((recentKicksFor s now).map KickEvent.time)).filter
    (fun i => decide (200 ≤ i ∧ i ≤ 2000))

/-- The per-interval BPM estimates `60000 / interval`. -/
def bpmEstimatesOf (s : EngineState) (now : ℚ) : List ℚ :=
  (bpmIntervalsOf s now).map (fun i => 60000 / i)

/-- `updateBPM`'s histogram bin key:
`Math.round(bpm / tolerance) * tolerance` with `tolerance = 5`. -/
def binKey (b : ℚ) : ℤ := jsRound (b / 5) * 5

/-- The estimates falling into the bin with the given key. -/
def binMembers (ests : List ℚ) (k : ℤ) : List ℚ :=
  ests.filter (fun b => decide (binKey b = k))

/-- The distinct bin keys in ascending order.  JavaScript iterates
`Object.entries(bpmBins)` over integer-like keys in ascending numeric
order, which for the non-negative keys arising here is exactly this
list. -/
def sortedKeys (ests : List ℚ) : List ℤ :=
  ((ests.map binKey).dedup).insertionSort (fun a b => a ≤ b)

/-- The `Object.entries(...).forEach` accumulation in `updateBPM`: keep
the strictly largest bin population seen so far together with that bin's
average estimate. -/
def binFold (ests : List ℚ) (keys : List ℤ) (init : ℕ × ℚ) : ℕ × ℚ :=
  keys.foldl (fun acc k =>
    if acc.1 < (binMembers ests k).length
    then ((binMembers ests k).length, listMean (binMembers ests k))
    else acc) init

/-- `BeatDetection.updateBPM`. -/
def updateBPM (s : EngineState) (now : ℚ) : EngineState :=
  if s.kickDetections.length < 2 then s
  else if (recentKicksFor s now).length < 2 then s
  else if (bpmIntervalsOf s now).length = 0 then s
  else
    let ests := bpmEstimatesOf s now
    let best := binFold ests (sortedKeys ests) (0, 0)
    if 0 < best.2 ∧ 2 ≤ best.1 then
      { s with
        bpm := ((jsRound (if s.bpm = 0 then best.2
                          else s.bpm * (7/10) + best.2 * (3/10)) : ℤ) : ℚ) }
    else s

/-- The spec-worded selection of `updateBPM`'s winning bin: the largest
bin population among all bins. -/
def maxBinCount (ests : List ℚ) : ℕ :=
  ((sortedKeys ests).map (fun k => (binMembers ests k).length)).foldr max 0

/-- The spec-worded winning bin key: the first (lowest) key whose bin is
most populated. -/
def winningKey (ests : List ℚ) : Option ℤ :=
  (sortedKeys ests).find? (fun k => decide ((binMembers ests k).length = maxBinCount ests))

/-- The spec-worded BPM candidate: the average of the winning bin's
member estimates. -/
def candidateBPM (ests : List ℚ) (k : ℤ) : ℚ := listMean (binMembers ests k)

/-- `BeatDetection.calculateKickConfidence`. -/
noncomputable def calculateKickConfidence (s : EngineState) (now : ℚ) : ℝ :=
  if s.kickDetections.length < 3 then 0
  else
    let recentKicks := sortKicksByTime (s.kickDetections.filter (fun k => decide (now - k.time < 8000)))
    if recentKicks.length < 3 then 0
    else
      let intervals := consecDiffs (recentKicks.map KickEvent.time)
      let avgInterval := listMean intervals
      let cv : ℝ := Real.sqrt ((listVar intervals : ℚ) : ℝ) / (avgInterval : ℝ)
      let consistencyScore := max 0 (1 - cv * 2)
      let energies := recentKicks.map KickEvent.energy
      let energyCV := Real.sqrt (listVar energies) / listMean energies
      let energyScore := max 0 (1 - energyCV)
      consistencyScore * (7/10) + energyScore * (3/10)

/-- `BeatDetection.calculateSnareConfidence`. -/
noncomputable def calculateSnareConfidence (s : EngineState) (now : ℚ) : ℝ :=
  if s.snareDetections.length < 2 then 0
  else
    let recentSnares := sortSnaresByTime (s.snareDetections.filter (fun x => decide (now - x.time < 8000)))
    if recentSnares.length < 2 then 0
    else
      let intervals := consecDiffs (recentSnares.map SnareEvent.time)
      let avgInterval := listMean intervals
      let cv : ℝ := Real.sqrt ((listVar intervals : ℚ) : ℝ) / (avgInterval : ℝ)
      let consistencyScore := max 0 (1 - cv * (3/2))
      let centroids := recentSnares.map SnareEvent.spectralCentroid
      let brightnessScore := max 0 (1 - Real.sqrt ((listVar centroids : ℚ) : ℝ))
      consistencyScore * (6/10) + brightnessScore * (4/10)

/-- `BeatDetection.calculateTempoConfidence` (pure rational arithmetic;
no square roots appear in the source function). -/
def calculateTempoConfidence (s : EngineState) (now : ℚ) : ℚ :=
  if s.bpm = 0 ∨ s.kickDetections.length < 4 then 0
  else if s.bpm < 60 ∨ 200 < s.bpm then 1/5
  else
    let recentKicks := sortKicksByTime (s.kickDetections.filter (fun k => decide (now - k.time < 6000)))
    if recentKicks.length < 4 then 3/10
    else
      let expectedInterval := 60000 / s.bpm
      let intervals := consecDiffs (recentKicks.map KickEvent.time)
      let matching := intervals.countP (fun i =>
        ([(1:ℚ)/4, 1/2, 1, 2, 4]).any (fun r =>
          decide (|i - expectedInterval * r| < expectedInterval * r * (3/20))))
      min 1 ((matching : ℚ) / (intervals.length : ℚ) * (6/5))

/-- `BeatDetection.updateBeatConfidence`: recompute the three sub-scores,
blend them 0.4/0.3/0.3, push into the capacity-20 confidence history. -/
noncomputable def updateBeatConfidence (s : EngineState) (now : ℚ) : EngineState :=
  let kc := calculateKickConfidence s now
  let sc := calculateSnareConfidence s now
  let tc : ℝ := ((calculateTempoConfidence s now : ℚ) : ℝ)
  let beat := kc * (4/10) + sc * (3/10) + tc * (3/10)
  { s with
    kickConfidence := kc
    snareConfidence := sc
    tempoConfidence := tc
    beatConfidence := beat
    confidenceHistory := pushCapped s.confidenceHistory beat 20 }

/-- A well-typed value of one option in the object passed to
`updateConfig`. -/
inductive ConfigValue where
  | num (q : ℚ)
  | natVal (n : ℕ)
  | range (lo hi : ℚ)
deriving DecidableEq

/-- The JavaScript object passed to `updateConfig`, as an association
list from property-name strings to values (unrecognized properties are
simply entries whose key is none of the six the source tests). -/
structure ConfigPatch where
  entries : List (String × ConfigValue)

/-- Property lookup `config.key` (`none` models `undefined`). -/
def getKey (p : ConfigPatch) (k : String) : Option ConfigValue :=
  (p.entries.find? (fun e => decide (e.1 = k))).map Prod.snd

/-- `if (config.kickFreqRange) this.kickFreqRange = {...config.kickFreqRange}`. -/
def applyKickFreqRange (s : EngineState) (p : ConfigPatch) : EngineState :=
  match getKey p "kickFreqRange" with
  | some (.range lo hi) => { s with kickFreqRange := (lo, hi) }
  | _ => s

/-- `if (config.kickThreshold !== undefined) ...`. -/
def applyKickThreshold (s : EngineState) (p : ConfigPatch) : EngineState :=
  match getKey p "kickThreshold" with
  | some (.num v) => { s with kickThreshold := v }
  | _ => s

/-- `if (config.kickCooldown !== undefined) ...`. -/
def applyKickCooldown (s : EngineState) (p : ConfigPatch) : EngineState :=
  match getKey p "kickCooldown" with
  | some (.num v) => { s with kickCooldown := v }
  | _ => s

/-- `if (config.onsetThreshold !== undefined) ...`. -/
def applyOnsetThreshold (s : EngineState) (p : ConfigPatch) : EngineState :=
  match getKey p "onsetThreshold" with
  | some (.num v) => { s with onsetThreshold := v }
  | _ => s

/-- `if (config.adaptiveMultiplier !== undefined) ...`. -/
def applyAdaptiveMultiplier (s : EngineState) (p : ConfigPatch) : EngineState :=
  match getKey p "adaptiveMultiplier" with
  | some (.num v) => { s with adaptiveMultiplier := v }
  | _ => s

/-- `if (config.energyWindowSize !== undefined) ...`. -/
def applyEnergyWindowSize (s : EngineState) (p : ConfigPatch) : EngineState :=
  match getKey p "energyWindowSize" with
  | some (.natVal n) => { s with energyWindowSize := n }
  | _ => s

/-- `BeatDetection.updateConfig`: the six guarded assignments in source
order. -/
def updateConfig (s : EngineState) (p : ConfigPatch) : EngineState :=
  applyEnergyWindowSize
    (applyAdaptiveMultiplier
      (applyOnsetThreshold
        (applyKickCooldown
          (applyKickThreshold
            (applyKickFreqRange s p) p) p) p) p) p

/-- The property names `updateConfig` actually tests. -/
def recognizedKeys : List String :=
  ["kickFreqRange", "kickThreshold", "kickCooldown",
   "onsetThreshold", "adaptiveMultiplier", "energyWindowSize"]

/-- The frame data object obtained from `audioEngine.getAnalysisData()`
(only the parts `analyzeFrame` reads). -/
structure AnalysisData where
  frequencyData : Option (List ℚ)
  timeData : List ℚ

/-- The per-frame result object `analyzeFrame` returns. -/
structure FrameResult where
  kickEnergy : ℝ
  snareEnergy : ℝ
  spectralFlux : ℚ
  spectralCentroid : ℚ
  rmsEnergy : ℝ
  zeroCrossingRate : ℚ
  kickDetected : Bool
  snareDetected : Bool
  currentTime : ℚ
  adaptiveThreshold : ℝ
  bpm : ℚ
  beatConfidence : ℝ
  kickConfidence : ℝ
  snareConfidence : ℝ
  tempoConfidence : ℝ

/-- `BeatDetection.analyzeFrame`.  When the frame provider yields no
analysis data, or data without a frequency array, the source returns
`null` (modelled as `none`) without touching the state; otherwise it
runs the full per-frame pipeline in source order. -/
noncomputable def analyzeFrame (s : EngineState) (analysisData : Option AnalysisData)
    (now sampleRate fftSize : ℚ) : Option FrameResult × EngineState :=
  match analysisData with
  | none => (none, s)
  | some ad =>
    match ad.frequencyData with
    | none => (none, s)
    | some freq =>
      let kickEnergy := calculateKickEnergy freq sampleRate fftSize s.kickFreqRange
      let snareEnergy := calculateSnareEnergy freq sampleRate fftSize s.snareFreqRange
      let fluxPair := calculateSpectralFlux s.previousFrequencyData freq sampleRate fftSize s.kickFreqRange
      let spectralFlux := fluxPair.1
      let s1 := { s with previousFrequencyData := fluxPair.2 }
      let spectralCentroid := calculateSpectralCentroid freq sampleRate fftSize
      let rmsEnergy := calculateRMSEnergy ad.timeData
      let s2 := { s1 with rmsHistory := pushCapped s1.rmsHistory rmsEnergy 30 }
      let zeroCrossingRate := calculateZeroCrossingRate ad.timeData
      let s3 := { s2 with zcrHistory := pushCapped s2.zcrHistory zeroCrossingRate 30 }
      let s4 := { s3 with energyHistory := pushCapped s3.energyHistory kickEnergy s3.energyWindowSize }
      let kickPair := detectKick s4 kickEnergy spectralFlux now
      let snarePair := detectSnare kickPair.2 snareEnergy spectralFlux spectralCentroid now
      let s7 := { snarePair.2 with previousFrequencyData := some freq }
      let s8 := if 1000 < now - s7.lastBpmUpdate
                then { updateBPM s7 now with lastBpmUpdate := now }
                else s7
      let s9 := updateBeatConfidence s8 now
      (some
        { kickEnergy := kickEnergy
          snareEnergy := snareEnergy
          spectralFlux := spectralFlux
          spectralCentroid := spectralCentroid
          rmsEnergy := rmsEnergy
          zeroCrossingRate := zeroCrossingRate
          kickDetected := kickPair.1
          snareDetected := snarePair.1
          currentTime := now
          adaptiveThreshold := getAdaptiveThreshold s9
          bpm := s9.bpm
          beatConfidence := s9.beatConfidence
          kickConfidence := s9.kickConfidence
          snareConfidence := s9.snareConfidence
          tempoConfidence := s9.tempoConfidence }, s9)

/-- The all-zero/255 alternating time-domain pattern of §8 of the spec:
`k` repetitions of the two-byte block `[0, 255]`. -/
def altPattern (k : ℕ) : List ℚ := (List.replicate k ([0, 255] : List ℚ)).flatten

/-- The §8 test scenario of the spec: ten consecutive kicks at exactly
500 ms intervals (all within the last ten seconds of `now = 10000`),
each with the same recorded energy `e`. -/
def steadyKicks (e : ℝ) : List KickEvent :=
  [⟨5500, e, 0, 0⟩, ⟨6000, e, 0, 0⟩, ⟨6500, e, 0, 0⟩, ⟨7000, e, 0, 0⟩, ⟨7500, e, 0, 0⟩,
   ⟨8000, e, 0, 0⟩, ⟨8500, e, 0, 0⟩, ⟨9000, e, 0, 0⟩, ⟨9500, e, 0, 0⟩, ⟨10000, e, 0, 0⟩]

/-! Helper lemmas. -/

theorem getD_zero_of_all_zero {l : List ℚ} (h : ∀ x ∈ l, x = 0) (i : ℕ) :
    l.getD i 0 = 0 := by
  induction l generalizing i with
  | nil => simp
  | cons a t ih =>
    cases i with
    | zero => simpa using h a (by simp)
    | succ n => simpa using ih (fun x hx => h x (by simp [hx])) n

theorem getD_nonneg_of_all_nonneg {l : List ℚ} (h : ∀ x ∈ l, 0 ≤ x) (i : ℕ) :
    0 ≤ l.getD i 0 := by
  induction l generalizing i with
  | nil => simp
  | cons a t ih =>
    cases i with
    | zero => simpa using h a (by simp)
    | succ n => simpa using ih (fun x hx => h x (by simp [hx])) n

theorem bandAverage_zero {freq : List ℚ} (hz : ∀ x ∈ freq, x = 0)
    (binSize : ℚ) (binCount : ℕ) (lo hi : ℚ) :
    bandAverage freq binSize binCount lo hi = 0 := by
  unfold bandAverage
  dsimp only
  split
  · rw [List.sum_eq_zero, zero_div]
    intro x hx
    rcases List.mem_map.mp hx with ⟨i, _, rfl⟩
    exact getD_zero_of_all_zero hz i
  · rfl

theorem rmsMeanSquare_all128 {l : List ℚ} (h : ∀ x ∈ l, x = 128) :
    rmsMeanSquare l = 0 := by
  unfold rmsMeanSquare
  rw [List.sum_eq_zero, zero_div]
  intro x hx
  rcases List.mem_map.mp hx with ⟨a, ha, rfl⟩
  rw [h a ha]
  norm_num [rescale]

theorem altPattern_stats (k : ℕ) :
    ((altPattern k).map (fun x => rescale x ^ 2)).sum = (k : ℚ) * (32513/16384)
    ∧ (altPattern k).length = 2 * k := by
  induction k with
  | zero => simp [altPattern]
  | succ n ih =>
    unfold altPattern at ih ⊢
    rw [List.replicate_succ, List.flatten_cons]
    refine ⟨?_, ?_⟩
    · rw [List.map_append, List.sum_append, ih.1]
      norm_num [rescale]
      ring
    · rw [List.length_append, ih.2]
      norm_num
      ring

theorem applyKickFreqRange_eq (s : EngineState) (p : ConfigPatch) :
    applyKickFreqRange s p =
      { s with kickFreqRange := match getKey p "kickFreqRange" with
          | some (.range lo hi) => (lo, hi) | _ => s.kickFreqRange } := by
  unfold applyKickFreqRange
  cases h : getKey p "kickFreqRange" with
  | none => rfl
  | some v => cases v <;> rfl

theorem applyKickThreshold_eq (s : EngineState) (p : ConfigPatch) :
    applyKickThreshold s p =
      { s with kickThreshold := match getKey p "kickThreshold" with
          | some (.num v) => v | _ => s.kickThreshold } := by
  unfold applyKickThreshold
  cases h : getKey p "kickThreshold" with
  | none => rfl
  | some v => cases v <;> rfl

theorem applyKickCooldown_eq (s : EngineState) (p : ConfigPatch) :
    applyKickCooldown s p =
      { s with kickCooldown := match getKey p "kickCooldown" with
          | some (.num v) => v | _ => s.kickCooldown } := by
  unfold applyKickCooldown
  cases h : getKey p "kickCooldown" with
  | none => rfl
  | some v => cases v <;> rfl

theorem applyOnsetThreshold_eq (s : EngineState) (p : ConfigPatch) :
    applyOnsetThreshold s p =
      { s with onsetThreshold := match getKey p "onsetThreshold" with
          | some (.num v) => v | _ => s.onsetThreshold } := by
  unfold applyOnsetThreshold
  cases h : getKey p "onsetThreshold" with
  | none => rfl
  | some v => cases v <;> rfl

theorem applyAdaptiveMultiplier_eq (s : EngineState) (p : ConfigPatch) :
    applyAdaptiveMultiplier s p =
      { s with adaptiveMultiplier := match getKey p "adaptiveMultiplier" with
          | some (.num v) => v | _ => s.adaptiveMultiplier } := by
  unfold applyAdaptiveMultiplier
  cases h : getKey p "adaptiveMultiplier" with
  | none => rfl
  | some v => cases v <;> rfl

theorem applyEnergyWindowSize_eq (s : EngineState) (p : ConfigPatch) :
    applyEnergyWindowSize s p =
      { s with energyWindowSize := match getKey p "energyWindowSize" with
          | some (.natVal n) => n | _ => s.energyWindowSize } := by
  unfold applyEnergyWindowSize
  cases h : getKey p "energyWindowSize" with
  | none => rfl
  | some v => cases v <;> rfl

theorem updateConfig_eq (s : EngineState) (p : ConfigPatch) :
    updateConfig s p =
      { s with
        kickFreqRange := match getKey p "kickFreqRange" with
          | some (.range lo hi) => (lo, hi) | _ => s.kickFreqRange
        kickThreshold := match getKey p "kickThreshold" with
          | some (.num v) => v | _ => s.kickThreshold
        kickCooldown := match getKey p "kickCooldown" with
          | some (.num v) => v | _ => s.kickCooldown
        onsetThreshold := match getKey p "onsetThreshold" with
          | some (.num v) => v | _ => s.onsetThreshold
        adaptiveMultiplier := match getKey p "adaptiveMultiplier" with
          | some (.num v) => v | _ => s.adaptiveMultiplier
        energyWindowSize := match getKey p "energyWindowSize" with
          | some (.natVal n) => n | _ => s.energyWindowSize } := by
  unfold updateConfig
  rw [applyKickFreqRange_eq, applyKickThreshold_eq, applyKickCooldown_eq,
    applyOnsetThreshold_eq, applyAdaptiveMultiplier_eq, applyEnergyWindowSize_eq]

/-! Claim theorems. -/

/-- C7: for every engine state, `getAdaptiveThreshold` is at least the
configured floor `kickThreshold`; with an empty energy history it equals
the floor exactly, and with a non-empty history (and the default
multiplier 1.2) it equals `max(mean + 1.2*stddev, floor)`. -/
theorem C7_adaptive_threshold_floor (s : EngineState) :
    ((s.kickThreshold : ℝ) ≤ getAdaptiveThreshold s)
    ∧ (s.energyHistory = [] → getAdaptiveThreshold s = (s.kickThreshold : ℝ))
    ∧ (s.energyHistory ≠ [] → s.adaptiveMultiplier = 6/5 →
        getAdaptiveThreshold s =
          max (listMean s.energyHistory + (6/5 : ℝ) * Real.sqrt (listVar s.energyHistory))
            (s.kickThreshold : ℝ)) := by
  refine ⟨?_, ?_, ?_⟩
  · unfold getAdaptiveThreshold
    split
    · exact le_refl _
    · exact le_max_right _ _
  · intro h
    unfold getAdaptiveThreshold
    rw [if_pos (by simp [h])]
  · intro h hm
    unfold getAdaptiveThreshold
    rw [if_neg (by simp [h]), hm]
    norm_num

/-- Witness for C7 at concrete inputs: the empty initial history yields
the floor, and a one-element history yields the mean/stddev formula. -/
theorem C7_adaptive_threshold_floor_witness :
    (initState.energyHistory = [] ∧ getAdaptiveThreshold initState = (initState.kickThreshold : ℝ))
    ∧ (({ initState with energyHistory := [(1:ℝ)] } : EngineState).energyHistory ≠ [] ∧
        getAdaptiveThreshold { initState with energyHistory := [(1:ℝ)] } =
          max (listMean [(1:ℝ)] + (6/5 : ℝ) * Real.sqrt (listVar [(1:ℝ)]))
            (initState.kickThreshold : ℝ)) :=
  ⟨⟨rfl, (C7_adaptive_threshold_floor initState).2.1 rfl⟩,
   ⟨by simp, (C7_adaptive_threshold_floor { initState with energyHistory := [(1:ℝ)] }).2.2
      (by simp) rfl⟩⟩

/-- C10: with an empty ZCR history, `getZCRStats` returns all-zero
statistics, the label "unknown" (which lies outside the
tonal/mixed/noisy classification) and no `stdDev` field, while every
non-empty history yields a `stdDev` field and one of the three
classification labels. -/
theorem C10_zcr_stats_empty :
    (getZCRStats [] = { current := 0, average := 0, minVal := 0, maxVal := 0,
                        variance := 0, stdDev := none, noisiness := "unknown" })
    ∧ ("unknown" ∉ (["tonal", "mixed", "noisy"] : List String))
    ∧ (∀ h : List ℚ, h ≠ [] →
        (getZCRStats h).stdDev.isSome = true ∧
        (getZCRStats h).noisiness ∈ (["tonal", "mixed", "noisy"] : List String)) := by
  refine ⟨rfl, by decide, ?_⟩
  intro h hne
  cases h with
  | nil => exact absurd rfl hne
  | cons x xs =>
    unfold getZCRStats
    dsimp only
    refine ⟨rfl, ?_⟩
    split
    · simp
    · split <;> simp

/-- Witness for C10 at the concrete one-element history `[0]`. -/
theorem C10_zcr_stats_empty_witness :
    (([(0:ℚ)] : List ℚ) ≠ []) ∧ (getZCRStats [(0:ℚ)]).stdDev.isSome = true ∧
      (getZCRStats [(0:ℚ)]).noisiness ∈ (["tonal", "mixed", "noisy"] : List String) :=
  ⟨by simp, (C10_zcr_stats_empty.2.2 [(0:ℚ)] (by simp)).1,
    (C10_zcr_stats_empty.2.2 [(0:ℚ)] (by simp)).2⟩

/-- C9: `detectSnare` is independent of the kick-side adaptive state:
states differing only in `energyHistory` yield the same boolean, snare
log and `lastSnareTime`; its energy gate compares against the state's
fixed `snareThreshold`, which the constructor sets to 0.15. -/
theorem C9_snare_independent_of_energy_history :
    (∀ (s : EngineState) (h : List ℝ) (e : ℝ) (f c t : ℚ),
      (detectSnare { s with energyHistory := h } e f c t).1 = (detectSnare s e f c t).1
      ∧ (detectSnare { s with energyHistory := h } e f c t).2.snareDetections
          = (detectSnare s e f c t).2.snareDetections
      ∧ (detectSnare { s with energyHistory := h } e f c t).2.lastSnareTime
          = (detectSnare s e f c t).2.lastSnareTime)
    ∧ (∀ (s : EngineState) (e : ℝ) (f c t : ℚ),
        e ≤ (s.snareThreshold : ℝ) → (detectSnare s e f c t).1 = false)
    ∧ initState.snareThreshold = 3/20 := by
  refine ⟨?_, ?_, rfl⟩
  · intro s h e f c t
    unfold detectSnare
    split_ifs <;> simp
  · intro s e f c t he
    unfold detectSnare
    split_ifs with h1 h2
    · rfl
    · exact absurd h2.1 (not_lt.mpr he)
    · rfl

/-- Witness for C9 at concrete inputs: a sub-threshold energy never
fires, and the energy-history irrelevance at a concrete pair of states. -/
theorem C9_snare_independent_witness :
    ((0:ℝ) ≤ (initState.snareThreshold : ℝ) ∧
      (detectSnare initState 0 1 1 1000).1 = false)
    ∧ (detectSnare { initState with energyHistory := [(2:ℝ)] } 1 1 1 1000).1
        = (detectSnare initState 1 1 1 1000).1 :=
  ⟨⟨by norm_num [initState], C9_snare_independent_of_energy_history.2.1 initState 0 1 1 1000
      (by norm_num [initState])⟩,
   (C9_snare_independent_of_energy_history.1 initState [(2:ℝ)] 1 1 1 1000).1⟩

/-- C1 counterexample: with missing analysis data the source's
`analyzeFrame` returns `null` (`none`) — the caller does not receive a
result object with all-zero/false fields. -/
theorem C1_missing_frame_counterexample :
    (analyzeFrame initState none 0 44100 2048).1 = none := rfl

/-- C1 (amended): when the frame provider yields no analysis data, or
data without a frequency array, `analyzeFrame` returns the null
sentinel `none`, raises no error, and leaves the engine state
unchanged. -/
theorem C1_missing_frame_returns_none (s : EngineState) (ad : Option AnalysisData)
    (now sampleRate fftSize : ℚ)
    (h : ad = none ∨ ∃ d, ad = some d ∧ d.frequencyData = none) :
    analyzeFrame s ad now sampleRate fftSize = (none, s) := by
  rcases h with rfl | ⟨d, rfl, hfd⟩
  · rfl
  · obtain ⟨fd, td⟩ := d
    have hfd' : fd = none := hfd
    subst hfd'
    rfl

/-- Witness for C1 at a concrete frame with a missing frequency array. -/
theorem C1_missing_frame_returns_none_witness :
    analyzeFrame initState (some { frequencyData := none, timeData := [] }) 0 44100 2048
      = (none, initState) :=
  C1_missing_frame_returns_none initState (some { frequencyData := none, timeData := [] })
    0 44100 2048 (Or.inr ⟨{ frequencyData := none, timeData := [] }, rfl, rfl⟩)

/-- C6: on an all-zero frequency-magnitude array (any positive sample
rate, FFT size and bin count), every named band average, the kick and
snare energies (for every frequency range), the spectral centroid and
the spectral flux (both on the first call and against any byte-valued
previous snapshot) are all zero. -/
theorem C6_zero_spectrum (freq : List ℚ) (sampleRate fftSize : ℚ) (binCount : ℕ)
    (hz : ∀ x ∈ freq, x = 0) (_hsr : 0 < sampleRate) (_hbc : 0 < binCount)
    (_hfs : 0 < fftSize) :
    calculateFrequencyBands freq sampleRate binCount =
      { subBass := 0, bass := 0, lowMids := 0, mids := 0, highMids := 0, treble := 0 }
    ∧ (∀ range : ℚ × ℚ, calculateKickEnergy freq sampleRate fftSize range = 0)
    ∧ (∀ range : ℚ × ℚ, calculateSnareEnergy freq sampleRate fftSize range = 0)
    ∧ calculateSpectralCentroid freq sampleRate fftSize = 0
    ∧ (calculateSpectralFlux none freq sampleRate fftSize (20, 200)).1 = 0
    ∧ (∀ (p : List ℚ) (range : ℚ × ℚ), (∀ y ∈ p, 0 ≤ y) →
        (calculateSpectralFlux (some p) freq sampleRate fftSize range).1 = 0) := by
  refine ⟨?_, ?_, ?_, ?_, rfl, ?_⟩
  · unfold calculateFrequencyBands
    simp only [bandAverage_zero hz]
  · intro range
    have hsum : ∀ idx : List ℕ, (idx.map (fun i => freq.getD i 0 ^ 2)).sum = (0:ℚ) := by
      intro idx
      apply List.sum_eq_zero
      intro x hx
      rcases List.mem_map.mp hx with ⟨i, _, rfl⟩
      rw [getD_zero_of_all_zero hz i]
      ring
    simp only [calculateKickEnergy, hsum]
    split
    · simp
    · rfl
  · intro range
    have hsum : ∀ (idx : List ℕ) (bs : ℚ),
        (idx.map (fun i => freq.getD i 0 ^ 2 * (if 1000 < (i : ℚ) * bs then 3/2 else 1))).sum
          = (0:ℚ) := by
      intro idx bs
      apply List.sum_eq_zero
      intro x hx
      rcases List.mem_map.mp hx with ⟨i, _, rfl⟩
      rw [getD_zero_of_all_zero hz i]
      ring
    simp only [calculateSnareEnergy, hsum]
    split
    · simp
    · rfl
  · have hmag : freq.sum = (0:ℚ) := List.sum_eq_zero hz
    simp only [calculateSpectralCentroid, hmag]
    rw [if_neg (lt_irrefl 0)]
  · intro p range hp
    have hsum : ∀ idx : List ℕ, (idx.map (fun i =>
        let d := freq.getD i 0 - p.getD i 0
        if 0 < d then d else 0)).sum = (0:ℚ) := by
      intro idx
      apply List.sum_eq_zero
      intro x hx
      rcases List.mem_map.mp hx with ⟨i, _, rfl⟩
      dsimp only
      rw [getD_zero_of_all_zero hz i, if_neg (by
        have := getD_nonneg_of_all_nonneg hp i
        intro hlt
        linarith)]
    simp only [calculateSpectralFlux, hsum]
    split
    · exact zero_div _
    · rfl

/-- Witness for C6 at a concrete all-zero four-bin spectrum. -/
theorem C6_zero_spectrum_witness :
    ((0:ℚ) < 44100 ∧ 0 < (4:ℕ) ∧ (0:ℚ) < 8)
    ∧ calculateFrequencyBands [0, 0, 0, 0] 44100 4 =
        { subBass := 0, bass := 0, lowMids := 0, mids := 0, highMids := 0, treble := 0 }
    ∧ calculateKickEnergy [0, 0, 0, 0] 44100 8 (20, 200) = 0
    ∧ (calculateSpectralFlux (some [1, 2]) [0, 0, 0, 0] 44100 8 (20, 200)).1 = 0 := by
  have h := C6_zero_spectrum [0, 0, 0, 0] 44100 8 4 (by decide) (by norm_num)
    (by norm_num) (by norm_num)
  exact ⟨⟨by norm_num, by norm_num, by norm_num⟩, h.1, h.2.1 (20, 200),
    h.2.2.2.2.2 [1, 2] (20, 200) (by decide)⟩

theorem runDetector_fire_lower {σ ι : Type} (step : σ → ι → Bool × σ)
    (lastOf cdOf : σ → ℚ) (timeOf : ι → ℚ) (d : ι)
    (hcd : ∀ s c, cdOf (step s c).2 = cdOf s)
    (hfireT : ∀ s c, (step s c).1 = true → cdOf s ≤ timeOf c - lastOf s)
    (hfireL : ∀ s c, (step s c).1 = true → lastOf (step s c).2 = timeOf c)
    (hnofire : ∀ s c, (step s c).1 = false → lastOf (step s c).2 = lastOf s) :
    ∀ (calls : List ι) (s : σ), 0 ≤ cdOf s → ∀ j, j < calls.length →
      (runDetector step s calls).getD j false = true →
      lastOf s + cdOf s ≤ timeOf (calls.getD j d) := by
  intro calls
  induction calls with
  | nil =>
    intro s h0 j hj
    simp at hj
  | cons c rest ih =>
    intro s h0 j hj hfired
    cases j with
    | zero =>
      simp only [runDetector, List.getD_cons_zero] at hfired ⊢
      have := hfireT s c hfired
      linarith
    | succ j' =>
      simp only [runDetector, List.getD_cons_succ] at hfired ⊢
      have h0' : 0 ≤ cdOf (step s c).2 := by rw [hcd]; exact h0
      have hrec := ih (step s c).2 h0' j'
        (by simp only [List.length_cons] at hj; omega) hfired
      rw [hcd] at hrec
      cases hb : (step s c).1 with
      | true =>
        rw [hfireL s c hb] at hrec
        have := hfireT s c hb
        linarith
      | false =>
        rw [hnofire s c hb] at hrec
        linarith

theorem runDetector_cooldown_gap {σ ι : Type} (step : σ → ι → Bool × σ)
    (lastOf cdOf : σ → ℚ) (timeOf : ι → ℚ) (d : ι)
    (hcd : ∀ s c, cdOf (step s c).2 = cdOf s)
    (hfireT : ∀ s c, (step s c).1 = true → cdOf s ≤ timeOf c - lastOf s)
    (hfireL : ∀ s c, (step s c).1 = true → lastOf (step s c).2 = timeOf c)
    (hnofire : ∀ s c, (step s c).1 = false → lastOf (step s c).2 = lastOf s) :
    ∀ (calls : List ι) (s : σ), 0 ≤ cdOf s → ∀ i j, i < j → j < calls.length →
      (runDetector step s calls).getD i false = true →
      (runDetector step s calls).getD j false = true →
      cdOf s ≤ timeOf (calls.getD j d) - timeOf (calls.getD i d) := by
  intro calls
  induction calls with
  | nil =>
    intro s h0 i j hij hj
    simp at hj
  | cons c rest ih =>
    intro s h0 i j hij hj hi' hj'
    cases j with
    | zero => omega
    | succ j' =>
      have h0' : 0 ≤ cdOf (step s c).2 := by rw [hcd]; exact h0
      cases i with
      | zero =>
        simp only [runDetector, List.getD_cons_zero, List.getD_cons_succ] at hi' hj' ⊢
        have hQ := runDetector_fire_lower step lastOf cdOf timeOf d hcd hfireT hfireL hnofire
          rest (step s c).2 h0' j' (by simp only [List.length_cons] at hj; omega) hj'
        rw [hfireL s c hi', hcd] at hQ
        linarith
      | succ i' =>
        simp only [runDetector, List.getD_cons_succ] at hi' hj' ⊢
        have hrec := ih (step s c).2 h0' i' j' (by omega)
          (by simp only [List.length_cons] at hj; omega) hi' hj'
        rw [hcd] at hrec
        exact hrec

theorem kickStep_cd (s : EngineState) (c : KickCall) :
    (kickStep s c).2.kickCooldown = s.kickCooldown := by
  simp only [kickStep, detectKick]
  split_ifs <;> rfl

theorem kickStep_fireT (s : EngineState) (c : KickCall) :
    (kickStep s c).1 = true → s.kickCooldown ≤ c.time - s.lastKickTime := by
  simp only [kickStep, detectKick]
  split_ifs with h1 h2 <;> intro h
  · exact absurd h (by simp)
  · linarith [not_lt.mp h1]
  · exact absurd h (by simp)

theorem kickStep_fireL (s : EngineState) (c : KickCall) :
    (kickStep s c).1 = true → (kickStep s c).2.lastKickTime = c.time := by
  simp only [kickStep, detectKick]
  split_ifs <;> intro h
  · exact absurd h (by simp)
  · rfl
  · exact absurd h (by simp)

theorem kickStep_nofire (s : EngineState) (c : KickCall) :
    (kickStep s c).1 = false → (kickStep s c).2.lastKickTime = s.lastKickTime := by
  simp only [kickStep, detectKick]
  split_ifs <;> intro h
  · rfl
  · exact absurd h (by simp)
  · rfl

theorem snareStep_cd (s : EngineState) (c : SnareCall) :
    (snareStep s c).2.snareCooldown = s.snareCooldown := by
  simp only [snareStep, detectSnare]
  split_ifs <;> rfl

theorem snareStep_fireT (s : EngineState) (c : SnareCall) :
    (snareStep s c).1 = true → s.snareCooldown ≤ c.time - s.lastSnareTime := by
  simp only [snareStep, detectSnare]
  split_ifs with h1 h2 <;> intro h
  · exact absurd h (by simp)
  · linarith [not_lt.mp h1]
  · exact absurd h (by simp)

theorem snareStep_fireL (s : EngineState) (c : SnareCall) :
    (snareStep s c).1 = true → (snareStep s c).2.lastSnareTime = c.time := by
  simp only [snareStep, detectSnare]
  split_ifs <;> intro h
  · exact absurd h (by simp)
  · rfl
  · exact absurd h (by simp)

theorem snareStep_nofire (s : EngineState) (c : SnareCall) :
    (snareStep s c).1 = false → (snareStep s c).2.lastSnareTime = s.lastSnareTime := by
  simp only [snareStep, detectSnare]
  split_ifs <;> intro h
  · rfl
  · exact absurd h (by simp)
  · rfl

/-- C5: over any sequence of detector calls with non-decreasing
timestamps, `detectKick` never returns true at two timestamps fewer
than the configured kick cooldown apart, and `detectSnare` never
returns true at two timestamps fewer than the configured snare
cooldown apart, regardless of the energy/flux/centroid inputs. -/
theorem C5_detector_cooldown :
    (∀ (s : EngineState) (calls : List KickCall) (i j : ℕ),
      (∀ a b, a ≤ b → b < calls.length →
        (calls.getD a ⟨0, 0, 0⟩).time ≤ (calls.getD b ⟨0, 0, 0⟩).time) →
      i < j → j < calls.length →
      (runDetector kickStep s calls).getD i false = true →
      (runDetector kickStep s calls).getD j false = true →
      s.kickCooldown ≤ (calls.getD j ⟨0, 0, 0⟩).time - (calls.getD i ⟨0, 0, 0⟩).time)
    ∧ (∀ (s : EngineState) (calls : List SnareCall) (i j : ℕ),
      (∀ a b, a ≤ b → b < calls.length →
        (calls.getD a ⟨0, 0, 0, 0⟩).time ≤ (calls.getD b ⟨0, 0, 0, 0⟩).time) →
      i < j → j < calls.length →
      (runDetector snareStep s calls).getD i false = true →
      (runDetector snareStep s calls).getD j false = true →
      s.snareCooldown ≤ (calls.getD j ⟨0, 0, 0, 0⟩).time - (calls.getD i ⟨0, 0, 0, 0⟩).time) := by
  constructor
  · intro s calls i j hmono hij hj hi' hj'
    rcases le_or_lt 0 s.kickCooldown with h0 | h0
    · exact runDetector_cooldown_gap kickStep (fun s => s.lastKickTime)
        (fun s => s.kickCooldown) (fun c => c.time) ⟨0, 0, 0⟩
        kickStep_cd kickStep_fireT kickStep_fireL kickStep_nofire
        calls s h0 i j hij hj hi' hj'
    · have := hmono i j (le_of_lt hij) hj
      linarith
  · intro s calls i j hmono hij hj hi' hj'
    rcases le_or_lt 0 s.snareCooldown with h0 | h0
    · exact runDetector_cooldown_gap snareStep (fun s => s.lastSnareTime)
        (fun s => s.snareCooldown) (fun c => c.time) ⟨0, 0, 0, 0⟩
        snareStep_cd snareStep_fireT snareStep_fireL snareStep_nofire
        calls s h0 i j hij hj hi' hj'
    · have := hmono i j (le_of_lt hij) hj
      linarith

/-- Detector step preservation lemmas used by the C5 witness. -/
theorem kickStep_energyHistory (s : EngineState) (c : KickCall) :
    (kickStep s c).2.energyHistory = s.energyHistory := by
  simp only [kickStep, detectKick]
  split_ifs <;> rfl

theorem kickStep_kickThreshold (s : EngineState) (c : KickCall) :
    (kickStep s c).2.kickThreshold = s.kickThreshold := by
  simp only [kickStep, detectKick]
  split_ifs <;> rfl

theorem kickStep_onsetThreshold (s : EngineState) (c : KickCall) :
    (kickStep s c).2.onsetThreshold = s.onsetThreshold := by
  simp only [kickStep, detectKick]
  split_ifs <;> rfl

theorem snareStep_snareThreshold (s : EngineState) (c : SnareCall) :
    (snareStep s c).2.snareThreshold = s.snareThreshold := by
  simp only [snareStep, detectSnare]
  split_ifs <;> rfl

theorem snareStep_onsetThreshold (s : EngineState) (c : SnareCall) :
    (snareStep s c).2.onsetThreshold = s.onsetThreshold := by
  simp only [snareStep, detectSnare]
  split_ifs <;> rfl

theorem kickStep_fires (s : EngineState) (c : KickCall)
    (hcool : ¬ (c.time - s.lastKickTime < s.kickCooldown))
    (hgate1 : getAdaptiveThreshold s < c.energy)
    (hgate2 : s.onsetThreshold < c.flux) : (kickStep s c).1 = true := by
  simp only [kickStep, detectKick]
  rw [if_neg hcool, if_pos ⟨hgate1, hgate2⟩]

theorem snareStep_fires (s : EngineState) (c : SnareCall)
    (hcool : ¬ (c.time - s.lastSnareTime < s.snareCooldown))
    (hgate1 : (s.snareThreshold : ℝ) < c.energy)
    (hgate2 : s.onsetThreshold * (6/5) < c.flux)
    (hgate3 : (3/10 : ℚ) < c.centroid) : (snareStep s c).1 = true := by
  simp only [snareStep, detectSnare]
  rw [if_neg hcool, if_pos ⟨hgate1, hgate2, hgate3⟩]

/-- Witness for C5 on a concrete two-call run in which both detectors
fire twice, 1000 ms apart — beyond both cooldowns. -/
theorem C5_detector_cooldown_witness :
    (runDetector kickStep initState [⟨1, 1, 1000⟩, ⟨1, 1, 2000⟩]).getD 0 false = true
    ∧ (runDetector kickStep initState [⟨1, 1, 1000⟩, ⟨1, 1, 2000⟩]).getD 1 false = true
    ∧ initState.kickCooldown ≤
        (([⟨1, 1, 1000⟩, ⟨1, 1, 2000⟩] : List KickCall).getD 1 ⟨0, 0, 0⟩).time -
        (([⟨1, 1, 1000⟩, ⟨1, 1, 2000⟩] : List KickCall).getD 0 ⟨0, 0, 0⟩).time
    ∧ (runDetector snareStep initState [⟨1, 1, 1, 1000⟩, ⟨1, 1, 1, 2000⟩]).getD 0 false = true
    ∧ (runDetector snareStep initState [⟨1, 1, 1, 1000⟩, ⟨1, 1, 1, 2000⟩]).getD 1 false = true
    ∧ initState.snareCooldown ≤
        (([⟨1, 1, 1, 1000⟩, ⟨1, 1, 1, 2000⟩] : List SnareCall).getD 1 ⟨0, 0, 0, 0⟩).time -
        (([⟨1, 1, 1, 1000⟩, ⟨1, 1, 1, 2000⟩] : List SnareCall).getD 0 ⟨0, 0, 0, 0⟩).time := by
  have hthr : getAdaptiveThreshold initState = ((1/10 : ℚ) : ℝ) := by
    unfold getAdaptiveThreshold
    rw [if_pos (show initState.energyHistory.length = 0 from rfl)]
    rfl
  have hb0 : (kickStep initState ⟨1, 1, 1000⟩).1 = true :=
    kickStep_fires _ _ (by norm_num [initState])
      (by rw [hthr]; norm_num) (by norm_num [initState])
  have hlast1 : (kickStep initState ⟨1, 1, 1000⟩).2.lastKickTime = 1000 :=
    kickStep_fireL _ _ hb0
  have hthr1 : getAdaptiveThreshold (kickStep initState ⟨1, 1, 1000⟩).2 = ((1/10 : ℚ) : ℝ) := by
    unfold getAdaptiveThreshold
    rw [if_pos (by rw [kickStep_energyHistory]; rfl), kickStep_kickThreshold]
    rfl
  have hb1 : (kickStep (kickStep initState ⟨1, 1, 1000⟩).2 ⟨1, 1, 2000⟩).1 = true :=
    kickStep_fires _ _
      (by rw [hlast1, kickStep_cd]; norm_num [initState])
      (by rw [hthr1]; norm_num)
      (by rw [kickStep_onsetThreshold]; norm_num [initState])
  have houts : runDetector kickStep initState [⟨1, 1, 1000⟩, ⟨1, 1, 2000⟩] = [true, true] := by
    simp only [runDetector]
    rw [hb0, hb1]
  have hsb0 : (snareStep initState ⟨1, 1, 1, 1000⟩).1 = true :=
    snareStep_fires _ _ (by norm_num [initState]) (by norm_num [initState])
      (by norm_num [initState]) (by norm_num)
  have hslast1 : (snareStep initState ⟨1, 1, 1, 1000⟩).2.lastSnareTime = 1000 :=
    snareStep_fireL _ _ hsb0
  have hsb1 : (snareStep (snareStep initState ⟨1, 1, 1, 1000⟩).2 ⟨1, 1, 1, 2000⟩).1 = true :=
    snareStep_fires _ _
      (by rw [hslast1, snareStep_cd]; norm_num [initState])
      (by rw [snareStep_snareThreshold]; norm_num [initState])
      (by rw [snareStep_onsetThreshold]; norm_num [initState])
      (by norm_num)
  have hsouts : runDetector snareStep initState [⟨1, 1, 1, 1000⟩, ⟨1, 1, 1, 2000⟩]
      = [true, true] := by
    simp only [runDetector]
    rw [hsb0, hsb1]
  refine ⟨by rw [houts]; rfl, by rw [houts]; rfl, ?_, by rw [hsouts]; rfl,
    by rw [hsouts]; rfl, ?_⟩
  · exact C5_detector_cooldown.1 initState [⟨1, 1, 1000⟩, ⟨1, 1, 2000⟩] 0 1
      (by
        intro a b hab hb
        simp only [List.length_cons, List.length_nil] at hb
        interval_cases b <;> interval_cases a <;> norm_num)
      (by norm_num) (by norm_num) (by rw [houts]; rfl) (by rw [houts]; rfl)
  · exact C5_detector_cooldown.2 initState [⟨1, 1, 1, 1000⟩, ⟨1, 1, 1, 2000⟩] 0 1
      (by
        intro a b hab hb
        simp only [List.length_cons, List.length_nil] at hb
        interval_cases b <;> interval_cases a <;> norm_num)
      (by norm_num) (by norm_num) (by rw [hsouts]; rfl) (by rw [hsouts]; rfl)


/-- C3 counterexample: the source's `updateConfig` tests the property
names `kickFreqRange` and `kickCooldown`, so a config object using the
claim's key names `kickFrequencyRange` and `kickCooldownMs` is ignored
entirely and the cooldown stays at its default 100. -/
theorem C3_updateConfig_counterexample :
    updateConfig initState
        { entries := [("kickCooldownMs", ConfigValue.num 500),
                      ("kickFrequencyRange", ConfigValue.range 40 400)] }
      = initState
    ∧ initState.kickCooldown = 100 := by
  constructor
  · rw [updateConfig_eq]
    rfl
  · rfl

/-- C3 (amended): `updateConfig` implements partial-update semantics
over exactly the recognized keys `kickFreqRange`, `kickThreshold`,
`kickCooldown`, `onsetThreshold`, `adaptiveMultiplier` and
`energyWindowSize`: a recognized key present in the argument overwrites
the corresponding parameter, an absent key leaves its parameter
unchanged, every other state field is untouched, and entries under any
other key have no effect. -/
theorem C3_updateConfig_partial_update (s : EngineState) (p : ConfigPatch) :
    (∀ lo hi, getKey p "kickFreqRange" = some (.range lo hi) →
        (updateConfig s p).kickFreqRange = (lo, hi))
    ∧ (getKey p "kickFreqRange" = none →
        (updateConfig s p).kickFreqRange = s.kickFreqRange)
    ∧ (∀ v, getKey p "kickThreshold" = some (.num v) →
        (updateConfig s p).kickThreshold = v)
    ∧ (getKey p "kickThreshold" = none →
        (updateConfig s p).kickThreshold = s.kickThreshold)
    ∧ (∀ v, getKey p "kickCooldown" = some (.num v) →
        (updateConfig s p).kickCooldown = v)
    ∧ (getKey p "kickCooldown" = none →
        (updateConfig s p).kickCooldown = s.kickCooldown)
    ∧ (∀ v, getKey p "onsetThreshold" = some (.num v) →
        (updateConfig s p).onsetThreshold = v)
    ∧ (getKey p "onsetThreshold" = none →
        (updateConfig s p).onsetThreshold = s.onsetThreshold)
    ∧ (∀ v, getKey p "adaptiveMultiplier" = some (.num v) →
        (updateConfig s p).adaptiveMultiplier = v)
    ∧ (getKey p "adaptiveMultiplier" = none →
        (updateConfig s p).adaptiveMultiplier = s.adaptiveMultiplier)
    ∧ (∀ n, getKey p "energyWindowSize" = some (.natVal n) →
        (updateConfig s p).energyWindowSize = n)
    ∧ (getKey p "energyWindowSize" = none →
        (updateConfig s p).energyWindowSize = s.energyWindowSize)
    ∧ ((updateConfig s p).lastKickTime = s.lastKickTime
       ∧ (updateConfig s p).snareFreqRange = s.snareFreqRange
       ∧ (updateConfig s p).snareThreshold = s.snareThreshold
       ∧ (updateConfig s p).snareCooldown = s.snareCooldown
       ∧ (updateConfig s p).lastSnareTime = s.lastSnareTime
       ∧ (updateConfig s p).energyHistory = s.energyHistory
       ∧ (updateConfig s p).previousFrequencyData = s.previousFrequencyData
       ∧ (updateConfig s p).kickDetections = s.kickDetections
       ∧ (updateConfig s p).snareDetections = s.snareDetections
       ∧ (updateConfig s p).bpm = s.bpm
       ∧ (updateConfig s p).lastBpmUpdate = s.lastBpmUpdate
       ∧ (updateConfig s p).rmsHistory = s.rmsHistory
       ∧ (updateConfig s p).zcrHistory = s.zcrHistory
       ∧ (updateConfig s p).confidenceHistory = s.confidenceHistory
       ∧ (updateConfig s p).beatConfidence = s.beatConfidence
       ∧ (updateConfig s p).kickConfidence = s.kickConfidence
       ∧ (updateConfig s p).snareConfidence = s.snareConfidence
       ∧ (updateConfig s p).tempoConfidence = s.tempoConfidence)
    ∧ (∀ q : ConfigPatch, (∀ k ∈ recognizedKeys, getKey q k = getKey p k) →
        updateConfig s q = updateConfig s p) := by
  refine ⟨?_, ?_, ?_, ?_, ?_, ?_, ?_, ?_, ?_, ?_, ?_, ?_, ?_, ?_⟩
  · intro lo hi h
    rw [updateConfig_eq, h]
  · intro h
    rw [updateConfig_eq, h]
  · intro v h
    rw [updateConfig_eq, h]
  · intro h
    rw [updateConfig_eq, h]
  · intro v h
    rw [updateConfig_eq, h]
  · intro h
    rw [updateConfig_eq, h]
  · intro v h
    rw [updateConfig_eq, h]
  · intro h
    rw [updateConfig_eq, h]
  · intro v h
    rw [updateConfig_eq, h]
  · intro h
    rw [updateConfig_eq, h]
  · intro n h
    rw [updateConfig_eq, h]
  · intro h
    rw [updateConfig_eq, h]
  · rw [updateConfig_eq]
    exact ⟨rfl, rfl, rfl, rfl, rfl, rfl, rfl, rfl, rfl, rfl, rfl, rfl, rfl, rfl, rfl, rfl,
      rfl, rfl⟩
  · intro q hq
    rw [updateConfig_eq s q, updateConfig_eq s p,
      hq "kickFreqRange" (by simp [recognizedKeys]),
      hq "kickThreshold" (by simp [recognizedKeys]),
      hq "kickCooldown" (by simp [recognizedKeys]),
      hq "onsetThreshold" (by simp [recognizedKeys]),
      hq "adaptiveMultiplier" (by simp [recognizedKeys]),
      hq "energyWindowSize" (by simp [recognizedKeys])]

/-- Witness for C3 at a concrete patch: a present `kickThreshold` entry
overwrites the threshold, an unrecognized entry changes nothing else,
and an absent `kickCooldown` stays unchanged. -/
theorem C3_updateConfig_partial_update_witness :
    getKey { entries := [("kickThreshold", ConfigValue.num (2/10)),
                         ("junkKey", ConfigValue.num 7)] } "kickThreshold"
        = some (ConfigValue.num (2/10))
    ∧ (updateConfig initState
        { entries := [("kickThreshold", ConfigValue.num (2/10)),
                      ("junkKey", ConfigValue.num 7)] }).kickThreshold = 2/10
    ∧ (updateConfig initState
        { entries := [("kickThreshold", ConfigValue.num (2/10)),
                      ("junkKey", ConfigValue.num 7)] }).kickCooldown
        = initState.kickCooldown := by
  refine ⟨rfl, ?_, ?_⟩
  · exact (C3_updateConfig_partial_update initState _).2.2.1 (2/10) rfl
  · exact (C3_updateConfig_partial_update initState _).2.2.2.2.2.1 rfl

/-- C2 counterexample: the two-sample array alternating between byte
values 0 and 255 does not have RMS energy exactly 1 (255 rescales to
127/128, not 1). -/
theorem C2_rms_counterexample : calculateRMSEnergy [0, 255] ≠ 1 := by
  unfold calculateRMSEnergy
  intro h
  rw [Real.sqrt_eq_one] at h
  norm_num [rmsMeanSquare, rescale] at h

/-- C2 (amended): every non-empty array constant at byte value 128 has
RMS energy exactly 0; every non-empty array alternating between 0 and
255 has RMS energy `sqrt(32513/32768) ≈ 0.996`, which is strictly less
than 1. -/
theorem C2_rms_values :
    (∀ l : List ℚ, l ≠ [] → (∀ x ∈ l, x = 128) → calculateRMSEnergy l = 0)
    ∧ (∀ k : ℕ, 1 ≤ k → calculateRMSEnergy (altPattern k) = Real.sqrt ((32513 : ℝ)/32768))
    ∧ Real.sqrt ((32513 : ℝ)/32768) < 1 := by
  refine ⟨?_, ?_, ?_⟩
  · intro l hne hall
    unfold calculateRMSEnergy
    rw [rmsMeanSquare_all128 hall]
    simp
  · intro k hk
    have hk0 : (k : ℚ) ≠ 0 := Nat.cast_ne_zero.mpr (by omega)
    unfold calculateRMSEnergy
    have hms : rmsMeanSquare (altPattern k) = 32513/32768 := by
      unfold rmsMeanSquare
      rw [(altPattern_stats k).1, (altPattern_stats k).2]
      push_cast
      field_simp
      ring
    rw [hms]
    norm_num
  · rw [Real.sqrt_lt' one_pos]
    norm_num

/-- Witness for C2 at the concrete arrays `[128, 128]` and `[0, 255]`. -/
theorem C2_rms_values_witness :
    (∀ x ∈ ([128, 128] : List ℚ), x = 128) ∧ calculateRMSEnergy [128, 128] = 0
    ∧ calculateRMSEnergy (altPattern 1) = Real.sqrt ((32513 : ℝ)/32768) :=
  ⟨by decide, C2_rms_values.1 [128, 128] (by simp) (by decide),
    C2_rms_values.2.1 1 le_rfl⟩

theorem foldl_argmax_spec (cnt : ℤ → ℕ) (av : ℤ → ℚ) :
    ∀ (keys : List ℤ) (c0 : ℕ) (b0 : ℚ),
      ((keys.map cnt).foldr max 0 ≤ c0 →
        keys.foldl (fun acc k => if acc.1 < cnt k then (cnt k, av k) else acc) (c0, b0)
          = (c0, b0))
      ∧ (∀ k, c0 < (keys.map cnt).foldr max 0 →
          keys.find? (fun k => decide (cnt k = (keys.map cnt).foldr max 0)) = some k →
          keys.foldl (fun acc k => if acc.1 < cnt k then (cnt k, av k) else acc) (c0, b0)
            = ((keys.map cnt).foldr max 0, av k)) := by
  intro keys
  induction keys with
  | nil =>
    intro c0 b0
    refine ⟨fun _ => rfl, fun k _ hf => ?_⟩
    simp at hf
  | cons a ks ih =>
    intro c0 b0
    constructor
    · intro hle
      rw [List.map_cons, List.foldr_cons] at hle
      have ha : cnt a ≤ c0 := le_trans (le_max_left _ _) hle
      have hks : (ks.map cnt).foldr max 0 ≤ c0 := le_trans (le_max_right _ _) hle
      rw [List.foldl_cons, if_neg (by omega)]
      exact (ih c0 b0).1 hks
    · intro k hM hf
      rw [List.map_cons, List.foldr_cons] at hM
      simp only [List.map_cons, List.foldr_cons] at hf ⊢
      rw [List.foldl_cons]
      rcases le_or_lt ((ks.map cnt).foldr max 0) (cnt a) with hM' | hM'
      · have hMa : max (cnt a) ((ks.map cnt).foldr max 0) = cnt a := max_eq_left hM'
        simp only [hMa] at hM hf ⊢
        rw [if_pos hM]
        rw [List.find?_cons_of_pos _ (by simp)] at hf
        injection hf with hak
        subst hak
        exact (ih (cnt a) (av a)).1 hM'
      · have hMa : max (cnt a) ((ks.map cnt).foldr max 0) = (ks.map cnt).foldr max 0 :=
          max_eq_right (le_of_lt hM')
        simp only [hMa] at hM hf ⊢
        rw [List.find?_cons_of_neg _ (by simp; omega)] at hf
        by_cases hca : c0 < cnt a
        · rw [if_pos hca]
          exact (ih (cnt a) (av a)).2 k hM' hf
        · rw [if_neg hca]
          exact (ih c0 b0).2 k hM hf

theorem consecDiffs_eq_nil {l : List ℚ} (h : l.length < 2) : consecDiffs l = [] := by
  match l with
  | [] => rfl
  | [_] => rfl
  | a :: b :: rest =>
    simp only [List.length_cons] at h
    omega

theorem foldr_max_mem (L : List ℕ) : L.foldr max 0 = 0 ∨ L.foldr max 0 ∈ L := by
  induction L with
  | nil => exact Or.inl rfl
  | cons a t ih =>
    rw [List.foldr_cons]
    rcases le_or_lt a (t.foldr max 0) with h | h
    · rw [max_eq_right h]
      rcases ih with h0 | hm
      · exact Or.inl h0
      · exact Or.inr (List.mem_cons_of_mem _ hm)
    · rw [max_eq_left (le_of_lt h)]
      exact Or.inr (List.mem_cons_self _ _)

theorem bpmEstimates_ge (s : EngineState) (now : ℚ) :
    ∀ x ∈ bpmEstimatesOf s now, (30:ℚ) ≤ x := by
  intro x hx
  unfold bpmEstimatesOf at hx
  rcases List.mem_map.mp hx with ⟨i, hi, rfl⟩
  unfold bpmIntervalsOf at hi
  have h2 := (List.mem_filter.mp hi).2
  rw [decide_eq_true_eq] at h2
  have hipos : (0:ℚ) < i := by linarith [h2.1]
  rw [le_div_iff₀ hipos]
  linarith [h2.2]

theorem listMean_pos {l : List ℚ} (h : ∀ x ∈ l, (30:ℚ) ≤ x) (hne : l ≠ []) :
    0 < listMean l := by
  have hlen : 0 < l.length := List.length_pos.mpr hne
  have hlenq : (0:ℚ) < (l.length : ℚ) := by exact_mod_cast hlen
  have h1 : l.length • (30:ℚ) ≤ l.sum := List.card_nsmul_le_sum l 30 h
  have hsum : (l.length : ℚ) * 30 ≤ l.sum := by rwa [nsmul_eq_mul] at h1
  unfold listMean
  apply div_pos _ hlenq
  nlinarith

/-- The full characterization of `updateBPM` used by claim C4 and by
the §8 scenario: if the most-populated histogram bin has fewer than two
members the state is returned unchanged; otherwise only `bpm` changes,
to the rounded smoothing of the winning bin's average estimate. -/
theorem updateBPM_characterize (s : EngineState) (now : ℚ) :
    (maxBinCount (bpmEstimatesOf s now) < 2 → updateBPM s now = s)
    ∧ (∀ k, 2 ≤ maxBinCount (bpmEstimatesOf s now) →
        winningKey (bpmEstimatesOf s now) = some k →
        updateBPM s now =
          { s with bpm := ((jsRound (if s.bpm = 0 then candidateBPM (bpmEstimatesOf s now) k
              else s.bpm * (7/10) + candidateBPM (bpmEstimatesOf s now) k * (3/10)) : ℤ) : ℚ) }) := by
  constructor
  · intro hM
    have hfold1 := (foldl_argmax_spec
      (fun k => (binMembers (bpmEstimatesOf s now) k).length)
      (fun k => listMean (binMembers (bpmEstimatesOf s now) k))
      (sortedKeys (bpmEstimatesOf s now)) 0 0).1
    have hbestlt : (binFold (bpmEstimatesOf s now) (sortedKeys (bpmEstimatesOf s now)) (0, 0)).1
        < 2 := by
      rcases Nat.eq_zero_or_pos (maxBinCount (bpmEstimatesOf s now)) with hz | hpos
      · have hz2 : binFold (bpmEstimatesOf s now) (sortedKeys (bpmEstimatesOf s now)) (0, 0)
            = (0, 0) := hfold1 (le_of_eq hz)
        rw [hz2]
        omega
      · have hex : ∃ k, (sortedKeys (bpmEstimatesOf s now)).find?
            (fun k => decide ((binMembers (bpmEstimatesOf s now) k).length
              = maxBinCount (bpmEstimatesOf s now))) = some k := by
          rcases foldr_max_mem (((sortedKeys (bpmEstimatesOf s now)).map
              (fun k => (binMembers (bpmEstimatesOf s now) k).length))) with hz | hmem
          · exact absurd hz (by unfold maxBinCount at hpos; omega)
          · rcases List.mem_map.mp hmem with ⟨k0, hk0, hk0eq⟩
            have hsome : ((sortedKeys (bpmEstimatesOf s now)).find?
                (fun k => decide ((binMembers (bpmEstimatesOf s now) k).length
                  = maxBinCount (bpmEstimatesOf s now)))).isSome := by
              rw [List.find?_isSome]
              exact ⟨k0, hk0, by simp [maxBinCount, hk0eq]⟩
            rcases Option.isSome_iff_exists.mp hsome with ⟨k, hk⟩
            exact ⟨k, hk⟩
        rcases hex with ⟨k, hk⟩
        have hfold2 := (foldl_argmax_spec
          (fun k => (binMembers (bpmEstimatesOf s now) k).length)
          (fun k => listMean (binMembers (bpmEstimatesOf s now) k))
          (sortedKeys (bpmEstimatesOf s now)) 0 0).2 k
          (by unfold maxBinCount at hpos; exact hpos) hk
        have hbesteq : binFold (bpmEstimatesOf s now) (sortedKeys (bpmEstimatesOf s now)) (0, 0)
            = (maxBinCount (bpmEstimatesOf s now),
               listMean (binMembers (bpmEstimatesOf s now) k)) := hfold2
        rw [hbesteq]
        exact hM
    simp only [updateBPM]
    split_ifs with h1 h2 h3 h4
    · rfl
    · rfl
    · rfl
    · exact absurd h4.2 (by omega)
    · exact absurd h4.2 (by omega)
    · rfl
  · intro k hM hw
    have hkfind : (sortedKeys (bpmEstimatesOf s now)).find?
        (fun k => decide ((binMembers (bpmEstimatesOf s now) k).length
          = maxBinCount (bpmEstimatesOf s now))) = some k := hw
    have hk_cnt : (binMembers (bpmEstimatesOf s now) k).length
        = maxBinCount (bpmEstimatesOf s now) := by
      have := List.find?_some hkfind
      rwa [decide_eq_true_eq] at this
    have hbin_le : (binMembers (bpmEstimatesOf s now) k).length
        ≤ (bpmEstimatesOf s now).length := List.length_filter_le _ _
    have hestlen : 2 ≤ (bpmEstimatesOf s now).length := by omega
    have hintlen : 2 ≤ (bpmIntervalsOf s now).length := by
      have : (bpmEstimatesOf s now).length = (bpmIntervalsOf s now).length := by
        unfold bpmEstimatesOf
        exact List.length_map _ _
      omega
    have hcdlen : (bpmIntervalsOf s now).length
        ≤ (consecDiffs ((recentKicksFor s now).map KickEvent.time)).length := by
      unfold bpmIntervalsOf
      exact List.length_filter_le _ _
    have hrec2 : 2 ≤ (recentKicksFor s now).length := by
      by_contra hcon
      push_neg at hcon
      have hmaplen : ((recentKicksFor s now).map KickEvent.time).length < 2 := by
        rw [List.length_map]
        omega
      rw [consecDiffs_eq_nil hmaplen, List.length_nil, Nat.le_zero] at hcdlen
      omega
    have hkd2 : 2 ≤ s.kickDetections.length := by
      have h1 : (recentKicksFor s now).length
          ≤ s.kickDetections.length := by
        unfold recentKicksFor sortKicksByTime
        rw [List.length_insertionSort]
        exact List.length_filter_le _ _
      omega
    have hfold2 := (foldl_argmax_spec
      (fun k => (binMembers (bpmEstimatesOf s now) k).length)
      (fun k => listMean (binMembers (bpmEstimatesOf s now) k))
      (sortedKeys (bpmEstimatesOf s now)) 0 0).2 k
      (lt_of_lt_of_le (by norm_num) hM) hkfind
    have hbesteq : binFold (bpmEstimatesOf s now) (sortedKeys (bpmEstimatesOf s now)) (0, 0)
        = (maxBinCount (bpmEstimatesOf s now),
           listMean (binMembers (bpmEstimatesOf s now) k)) := hfold2
    have hbinne : binMembers (bpmEstimatesOf s now) k ≠ [] := by
      intro hnil
      rw [hnil] at hk_cnt
      simp at hk_cnt
      omega
    have hcandpos : 0 < listMean (binMembers (bpmEstimatesOf s now) k) :=
      listMean_pos (fun x hx => bpmEstimates_ge s now x (List.mem_filter.mp hx).1) hbinne
    simp only [updateBPM]
    rw [if_neg (by omega), if_neg (by omega), if_neg (by omega), hbesteq,
      if_pos ⟨hcandpos, hM⟩]
    rfl

/-- C4: on every call, `updateBPM` leaves the stored BPM exactly
unchanged (never resetting it) unless the most-populated 5-BPM-wide bin
of the estimates `60000/interval` — over the consecutive intervals in
`[200ms, 2000ms]` of the last ten seconds' kicks — has at least two
members, in which case only `bpm` changes, to `round(candidate)` when
the previous BPM was 0 and `round(bpm*0.7 + candidate*0.3)` otherwise,
where `candidate` averages the winning bin's members. -/
theorem C4_updateBPM_characterization (s : EngineState) (now : ℚ) :
    (maxBinCount (bpmEstimatesOf s now) < 2 → updateBPM s now = s)
    ∧ (∀ k, 2 ≤ maxBinCount (bpmEstimatesOf s now) →
        winningKey (bpmEstimatesOf s now) = some k →
        updateBPM s now =
          { s with bpm := ((jsRound (if s.bpm = 0 then candidateBPM (bpmEstimatesOf s now) k
              else s.bpm * (7/10) + candidateBPM (bpmEstimatesOf s now) k * (3/10)) : ℤ) : ℚ) }) :=
  updateBPM_characterize s now

theorem steadyKicks_recent (e : ℝ) :
    recentKicksFor { initState with kickDetections := steadyKicks e } 10000 = steadyKicks e := by
  unfold recentKicksFor
  have hfil : ({ initState with kickDetections := steadyKicks e } : EngineState).kickDetections.filter
      (fun k => decide ((10000 : ℚ) - k.time < 10000)) = steadyKicks e := by
    show (steadyKicks e).filter _ = steadyKicks e
    simp only [steadyKicks, List.filter_cons, List.filter_nil, decide_eq_true_eq]
    norm_num
  rw [hfil]
  unfold sortKicksByTime
  apply List.Sorted.insertionSort_eq
  simp only [steadyKicks, List.sorted_cons, List.forall_mem_cons, List.forall_mem_nil,
    List.sorted_nil]
  norm_num

theorem steadyKicks_estimates (e : ℝ) :
    bpmEstimatesOf { initState with kickDetections := steadyKicks e } 10000
      = [120, 120, 120, 120, 120, 120, 120, 120, 120] := by
  unfold bpmEstimatesOf bpmIntervalsOf
  rw [steadyKicks_recent]
  simp only [steadyKicks, List.map_cons, List.map_nil, consecDiffs, List.filter_cons,
    List.filter_nil, decide_eq_true_eq]
  norm_num

theorem binKey_120 : binKey 120 = 120 := by
  unfold binKey jsRound
  have h245 : (⌊(120:ℚ)/5 + 1/2⌋ : ℤ) = 24 := by
    rw [Int.floor_eq_iff]
    norm_num
  rw [h245]
  norm_num

theorem ests9_members :
    binMembers [(120:ℚ), 120, 120, 120, 120, 120, 120, 120, 120] 120
      = [(120:ℚ), 120, 120, 120, 120, 120, 120, 120, 120] := by
  unfold binMembers
  simp [binKey_120]

theorem ests9_sortedKeys :
    sortedKeys [(120:ℚ), 120, 120, 120, 120, 120, 120, 120, 120] = [120] := by
  unfold sortedKeys
  have h1 : List.map binKey [(120:ℚ), 120, 120, 120, 120, 120, 120, 120, 120]
      = [120, 120, 120, 120, 120, 120, 120, 120, 120] := by
    simp [binKey_120]
  rw [h1]
  have h2 : ([120, 120, 120, 120, 120, 120, 120, 120, 120] : List ℤ).dedup = [120] := by
    decide
  rw [h2]
  rfl

theorem ests9_max :
    maxBinCount [(120:ℚ), 120, 120, 120, 120, 120, 120, 120, 120] = 9 := by
  unfold maxBinCount
  rw [ests9_sortedKeys]
  simp [ests9_members]

theorem ests9_win :
    winningKey [(120:ℚ), 120, 120, 120, 120, 120, 120, 120, 120] = some 120 := by
  unfold winningKey
  rw [ests9_sortedKeys]
  rw [List.find?_cons_of_pos _ (by simp [ests9_members, ests9_max])]

theorem ests9_candidate :
    candidateBPM [(120:ℚ), 120, 120, 120, 120, 120, 120, 120, 120] 120 = 120 := by
  unfold candidateBPM
  rw [ests9_members]
  norm_num [listMean]

theorem steadyKicks_updateBPM (e : ℝ) :
    updateBPM { initState with kickDetections := steadyKicks e } 10000
      = { initState with kickDetections := steadyKicks e, bpm := 120 } := by
  have h := (updateBPM_characterize { initState with kickDetections := steadyKicks e } 10000).2
    120
    (by rw [steadyKicks_estimates, ests9_max]; norm_num)
    (by rw [steadyKicks_estimates, ests9_win])
  rw [steadyKicks_estimates] at h
  rw [h]
  have hbpm0 : ({ initState with kickDetections := steadyKicks e } : EngineState).bpm = 0 := rfl
  rw [hbpm0, if_pos rfl, ests9_candidate]
  rw [show jsRound 120 = 120 from by unfold jsRound; rw [Int.floor_eq_iff]; norm_num]
  norm_num

/-- Witness for C4 on the §8 scenario: with ten kicks 500 ms apart the
winning bin is 120 BPM with nine members, and `updateBPM` sets the BPM
field to 120 while changing nothing else. -/
theorem C4_updateBPM_characterization_witness :
    2 ≤ maxBinCount (bpmEstimatesOf { initState with kickDetections := steadyKicks 1 } 10000)
    ∧ winningKey (bpmEstimatesOf { initState with kickDetections := steadyKicks 1 } 10000)
        = some 120
    ∧ updateBPM { initState with kickDetections := steadyKicks 1 } 10000
        = { initState with kickDetections := steadyKicks 1, bpm := 120 } := by
  refine ⟨by rw [steadyKicks_estimates, ests9_max]; norm_num,
    by rw [steadyKicks_estimates]; exact ests9_win, ?_⟩
  have h := (C4_updateBPM_characterization
      { initState with kickDetections := steadyKicks 1 } 10000).2 120
    (by rw [steadyKicks_estimates, ests9_max]; norm_num)
    (by rw [steadyKicks_estimates]; exact ests9_win)
  rw [steadyKicks_estimates] at h
  rw [h]
  have hbpm0 : ({ initState with kickDetections := steadyKicks 1 } : EngineState).bpm = 0 := rfl
  rw [hbpm0, if_pos rfl, ests9_candidate]
  rw [show jsRound 120 = 120 from by unfold jsRound; rw [Int.floor_eq_iff]; norm_num]
  norm_num

theorem steadyKicks_recent8 (e : ℝ) :
    sortKicksByTime ((steadyKicks e).filter (fun k => decide ((10000:ℚ) - k.time < 8000)))
      = steadyKicks e := by
  have hfil : (steadyKicks e).filter (fun k => decide ((10000:ℚ) - k.time < 8000))
      = steadyKicks e := by
    simp only [steadyKicks, List.filter_cons, List.filter_nil, decide_eq_true_eq]
    norm_num
  rw [hfil]
  unfold sortKicksByTime
  apply List.Sorted.insertionSort_eq
  simp only [steadyKicks, List.sorted_cons, List.forall_mem_cons, List.forall_mem_nil,
    List.sorted_nil]
  norm_num

theorem steadyKicks_intervals (e : ℝ) :
    consecDiffs ((steadyKicks e).map KickEvent.time)
      = [500, 500, 500, 500, 500, 500, 500, 500, 500] := by
  simp only [steadyKicks, List.map_cons, List.map_nil, consecDiffs]
  norm_num

theorem steadyKicks_energies (e : ℝ) :
    (steadyKicks e).map KickEvent.energy = [e, e, e, e, e, e, e, e, e, e] := by
  simp [steadyKicks]

theorem intervals9_mean :
    listMean ([500, 500, 500, 500, 500, 500, 500, 500, 500] : List ℚ) = 500 := by
  norm_num [listMean]

theorem intervals9_var :
    listVar ([500, 500, 500, 500, 500, 500, 500, 500, 500] : List ℚ) = 0 := by
  norm_num [listVar, listMean]

theorem energies10_mean (e : ℝ) : listMean [e, e, e, e, e, e, e, e, e, e] = e := by
  simp only [listMean, List.sum_cons, List.sum_nil, List.length_cons, List.length_nil]
  push_cast
  ring

theorem energies10_var (e : ℝ) : listVar [e, e, e, e, e, e, e, e, e, e] = 0 := by
  simp only [listVar, energies10_mean, List.map_cons, List.map_nil, sub_self,
    List.sum_cons, List.sum_nil]
  norm_num

theorem steadyKicks_confidence (e : ℝ) :
    calculateKickConfidence { initState with kickDetections := steadyKicks e } 10000 = 1 := by
  simp only [calculateKickConfidence]
  rw [if_neg (by norm_num [steadyKicks])]
  rw [steadyKicks_recent8]
  rw [if_neg (by norm_num [steadyKicks])]
  rw [steadyKicks_intervals, steadyKicks_energies, intervals9_mean, intervals9_var,
    energies10_mean, energies10_var]
  rw [Real.sqrt_zero]
  norm_num [max_eq_right]

/-- C8: starting from bpm = 0, a log of ten consecutive kicks at exactly
500 ms intervals within the last ten seconds with equal energies makes a
single `updateBPM` call set the BPM to 120, and `calculateKickConfidence`
over that log returns exactly 1 (both coefficients of variation are 0). -/
theorem C8_steady_kicks_bpm_confidence (e : ℝ) (_he : 0 < e) :
    (updateBPM { initState with kickDetections := steadyKicks e } 10000).bpm = 120
    ∧ calculateKickConfidence { initState with kickDetections := steadyKicks e } 10000 = 1 := by
  constructor
  · rw [steadyKicks_updateBPM]
  · exact steadyKicks_confidence e

/-- Witness for C8 at the concrete energy 1. -/
theorem C8_steady_kicks_bpm_confidence_witness :
    (0:ℝ) < 1
    ∧ (updateBPM { initState with kickDetections := steadyKicks 1 } 10000).bpm = 120
    ∧ calculateKickConfidence { initState with kickDetections := steadyKicks 1 } 10000 = 1 :=
  ⟨by norm_num, (C8_steady_kicks_bpm_confidence 1 (by norm_num)).1,
    (C8_steady_kicks_bpm_confidence 1 (by norm_num)).2⟩

end BeatDetection
